import Mathlib

/-!
Verification development for the JIRA acceptance-criteria assistant scripts.

This file gives a shallow embedding of the retrieval-augmented pipeline in
`src/jira_rag.py` together with the helper functions of `src/utils.py`, and
proves (or refutes) the stated properties about them.

Modelling conventions:
* Python strings are modelled as `String` / `List Char` (one entry per code
  point, matching Python's `len`).
* Fallible attribute accesses and external calls are modelled with
  `Except String` (`Except.error` = the call raised an exception).
* The external collaborators (JIRA tracker, chat model, embedding model,
  similarity search) are modelled as an explicit environment record of pure
  functions: the scripts are single-threaded and issue blocking calls, so one
  deterministic environment value per run is faithful.
* The vector-store library is modelled by the behaviour of the calls the
  scripts make: `Chroma.from_texts` with a `persist_directory` reconnects to
  (get-or-creates) the collection already persisted in that directory and
  appends the supplied chunks to it with fresh ids, `add_texts` appends to
  the handle's collection, and `persist` snapshots the collection to disk.
  The embedded backend operations are pure and total, so the `except` branch
  of `create_or_update_vector_store` — which the source uses to swallow
  backend exceptions without re-raising — is unreachable in the model.
* The text splitter configured in `JiraRAGAssistant.__init__`
  (`CharacterTextSplitter(separator="\n", chunk_size=500, chunk_overlap=50,
  length_function=len)`) is embedded below down to its merge loop, because
  several properties depend on its exact behaviour.
-/

/-- Python whitespace test used by `str.strip()` (ASCII whitespace characters). -/
def pyIsSpace (c : Char) : Bool :=
  c = ' ' || c = '\t' || c = '\n' || c = '\r' || c = '\x0b' || c = '\x0c'

/-- Python `s.strip()` on a list of characters: drop whitespace from both ends. -/
def stripChars (l : List Char) : List Char :=
  ((l.dropWhile pyIsSpace).reverse.dropWhile pyIsSpace).reverse

/-- Python `text.split("\n")`, the effect of `re.split` on the escaped
one-character separator configured in `__init__`. -/
def splitNL : List Char → List (List Char)
  | [] => [[]]
  | c :: cs =>
    match splitNL cs with
    | [] => [[]]
    | seg :: rest => if c = '\n' then [] :: seg :: rest else (c :: seg) :: rest

/-- langchain `_split_text_with_regex` with `keep_separator = False`:
split on the separator and drop empty pieces. -/
def nlSplits (l : List Char) : List (List Char) :=
  (splitNL l).filter (fun s => !s.isEmpty)

/-- Python `"\n".join(docs)` at character-list level. -/
def joinNL : List (List Char) → List Char
  | [] => []
  | [a] => a
  | a :: b :: r => a ++ '\n' :: joinNL (b :: r)

/-- langchain `TextSplitter._join_docs` with `strip_whitespace = True`:
join with the separator, strip, and drop an empty result. -/
def joinDocs (cur : List (List Char)) : Option (List Char) :=
  if (stripChars (joinNL cur)).isEmpty then none
  else some (stripChars (joinNL cur))

/-- chunk size configured in `JiraRAGAssistant.__init__`. -/
def chunkSize : Nat := 500

/-- chunk overlap configured in `JiraRAGAssistant.__init__`. -/
def chunkOverlap : Nat := 50

/-- langchain `TextSplitter._merge_splits` inner while-loop: pop leading
members of `current_doc` while the running window is too large.  The
separator has length 1, and `current_doc` is nonempty in the guard's
separator term for the cons case.  (Python would evaluate `current_doc[0]`
on an empty list if the guard held there, but under the loop invariant
`total = 0` on an empty list, so the guard is false and returning directly
agrees with the source on all reachable states.) -/
def popLoop (dLen : Nat) : List (List Char) → Nat → List (List Char) × Nat
  | [], total => ([], total)
  | c :: rest, total =>
    if total > chunkOverlap ∨ (total + dLen + 1 > chunkSize ∧ total > 0) then
      popLoop dLen rest (total - (c.length + if rest.isEmpty then 0 else 1))
    else (c :: rest, total)

/-- langchain `TextSplitter._merge_splits` main loop over the splits:
`cur`/`total` are `current_doc` and `total`, `docs` the accumulated output.
A chunk is emitted when adding the next split would exceed `chunk_size`;
over-long windows are emitted anyway (the source only logs a warning). -/
def mergeGo : List (List Char) → List (List Char) → Nat → List (List Char) → List (List Char)
  | [], cur, _total, docs => docs ++ (joinDocs cur).toList
  | d :: ds, cur, total, docs =>
    if total + d.length + (if cur.isEmpty then 0 else 1) > chunkSize then
      mergeGo ds ((popLoop d.length cur total).1 ++ [d])
        ((popLoop d.length cur total).2 + d.length +
          (if (popLoop d.length cur total).1.isEmpty then 0 else 1))
        (docs ++ (if cur.isEmpty then [] else (joinDocs cur).toList))
    else
      mergeGo ds (cur ++ [d]) (total + d.length + (if cur.isEmpty then 0 else 1)) docs

/-- langchain `TextSplitter._merge_splits` entry point. -/
def merge_splits (ss : List (List Char)) : List (List Char) :=
  mergeGo ss [] 0 []

/-- langchain `CharacterTextSplitter.split_text` at character-list level. -/
def split_text_chars (l : List Char) : List (List Char) :=
  merge_splits (nlSplits l)

/-- the `self.text_splitter.split_text` call used by
`JiraRAGAssistant.create_or_update_vector_store`. -/
def split_text (s : String) : List String :=
  (split_text_chars s.data).map (fun l => String.mk l)

example : split_text "abc" = ["abc"] := by decide
example : split_text "" = [] := by decide
example : split_text "a\nb" = ["a\nb"] := by decide

/-! ## Data model of `src/jira_rag.py` -/

instance {ε α : Type} [DecidableEq ε] [DecidableEq α] : DecidableEq (Except ε α)
  | Except.error e, Except.error f =>
    if h : e = f then Decidable.isTrue (by cases h; rfl)
    else Decidable.isFalse (by intro hc; cases hc; exact h rfl)
  | Except.error _, Except.ok _ => Decidable.isFalse (by intro hc; cases hc)
  | Except.ok _, Except.error _ => Decidable.isFalse (by intro hc; cases hc)
  | Except.ok a, Except.ok b =>
    if h : a = b then Decidable.isTrue (by cases h; rfl)
    else Decidable.isFalse (by intro hc; cases hc; exact h rfl)

/-- chunk metadata dictionary: `source` is always present; ticket chunks carry
`ticket`, the definition-of-done chunk carries `type = "reference"` instead. -/
structure ChunkMeta where
  source : String
  ticket : Option String
  mtype : Option String
deriving Repr, DecidableEq

/-- raw tracker issue as seen through the `jira` library.  Each dynamic
attribute access that can raise `AttributeError`/network errors is modelled
with `Except String` (`Except.error` = the access raises); `issue.key` is
modelled as total; `customfield_10006` is read with `getattr(..., "")`, which
never raises, and `none` models a missing attribute or a `None` value. -/
structure RawIssue where
  key : String
  summary : Except String String
  description : Except String (Option String)
  issuetypeName : Except String String
  customfield_10006 : Option String
deriving Repr, DecidableEq

/-- the dictionary built by `JiraRAGAssistant.extract_ticket_content`. -/
structure TicketContent where
  key : String
  summary : String
  description : String
  itype : String
  acceptance_criteria : String
deriving Repr, DecidableEq

/-- `JiraRAGAssistant.extract_ticket_content`: the whole dictionary
construction sits in one `try`; if reading `summary`, `description` or
`issuetype.name` raises, the function logs and returns `None`.  A `None`
description maps to `""` (`or ""`), and a missing/`None` acceptance-criteria
custom field maps to `""` (`getattr(..., "") or ""`). -/
def extract_ticket_content (issue : RawIssue) : Option TicketContent :=
  match issue.summary, issue.description, issue.issuetypeName with
  | Except.ok s, Except.ok d, Except.ok t =>
    some { key := issue.key, summary := s, description := d.getD "",
           itype := t, acceptance_criteria := issue.customfield_10006.getD "" }
  | _, _, _ => none

/-- environment of external collaborators: tracker reads, the definition-of-
done file, the vector store's similarity search and the chat model.  All are
blocking, deterministic calls within one run (spec section 5). -/
structure JiraEnv where
  getIssue : String → Except String RawIssue
  searchIssues : String → Except String (List RawIssue)
  dodFile : Option String
  simSearch : List (String × ChunkMeta) → String → Nat → Except String (List (String × ChunkMeta))
  chatInvoke : String → Except String String

/-- the JQL query string built by `fetch_all_related_tickets`. -/
def jqlFor (parent_key : String) : String :=
  "parent = " ++ parent_key ++ " OR \"Epic Link\" = " ++ parent_key

/-- `JiraRAGAssistant.fetch_all_related_tickets`: parent first, then the
children query; any exception is caught and yields the empty list. -/
def fetch_all_related_tickets (env : JiraEnv) (parent_key : String) : List RawIssue :=
  match env.getIssue parent_key with
  | Except.error _ => []
  | Except.ok parent =>
    match env.searchIssues (jqlFor parent_key) with
    | Except.error _ => []
    | Except.ok children => parent :: children

/-- mutable state of a `JiraRAGAssistant` instance plus the persisted
artifacts: the in-memory vector-store handle (`None` until built), the
persisted on-disk representation under `persist_directory`, and the
`processed_tickets` set. -/
structure RAGState where
  vector_store : Option (List (String × ChunkMeta))
  disk : Option (List (String × ChunkMeta))
  processed_tickets : Finset String
deriving DecidableEq

/-- the `(texts, metadatas)` pairs accumulated by the ticket loop of
`build_knowledge_base`: a ticket whose extraction returned `None` is skipped
entirely; otherwise its description is always appended and its acceptance
criteria only when truthy (nonempty). -/
def collectTexts : List RawIssue → List (String × ChunkMeta)
  | [] => []
  | t :: rest =>
    match extract_ticket_content t with
    | none => collectTexts rest
    | some c =>
      ((c.description, ⟨"description", some c.key, none⟩) ::
        (if c.acceptance_criteria ≠ "" then
          [(c.acceptance_criteria, ⟨"acceptance_criteria", some c.key, none⟩)]
         else [])) ++
      collectTexts rest

/-- the `processed_tickets` set accumulated by the same loop. -/
def collectProcessed : List RawIssue → Finset String
  | [] => ∅
  | t :: rest =>
    match extract_ticket_content t with
    | none => collectProcessed rest
    | some c => insert c.key (collectProcessed rest)

/-- metadata of the definition-of-done pseudo-ticket. -/
def dodMeta : ChunkMeta := ⟨"definition_of_done", none, some "reference"⟩

/-- the definition-of-done document appended by `build_knowledge_base`:
`read_definition_of_done` returns `None` on a read error (modelled by
`env.dodFile = none`), and the `if dod:` guard also drops an empty string. -/
def dodDocs (env : JiraEnv) : List (String × ChunkMeta) :=
  match env.dodFile with
  | some dod => if dod ≠ "" then [(dod, dodMeta)] else []
  | none => []

/-- chunking step of `create_or_update_vector_store`: each text is split and
every chunk of text `i` is paired with `metadatas[i]`. -/
def chunksOf (docs : List (String × ChunkMeta)) : List (String × ChunkMeta) :=
  docs.flatMap (fun dc => (split_text dc.1).map (fun c => (c, dc.2)))

/-- `JiraRAGAssistant.create_or_update_vector_store`: chunk all texts, then
either call `Chroma.from_texts` with `persist_directory` when the handle is
`None` — the library get-or-creates the collection already persisted in that
directory (the empty collection for a fresh directory) and appends the new
chunks to it with fresh ids — or append (`add_texts`) to the existing
handle's collection otherwise; in both cases `persist()` snapshots the
collection to disk.  The method's `try/except` swallows backend exceptions
without re-raising; the embedded backend operations are pure and total, so
that branch is unreachable here (in the source it would leave the cleared
handle and the prior persisted entries in place). -/
def create_or_update_vector_store (st : RAGState) (docs : List (String × ChunkMeta)) :
    RAGState :=
  let chunks := chunksOf docs
  match st.vector_store with
  | none =>
    { st with vector_store := some (st.disk.getD [] ++ chunks),
              disk := some (st.disk.getD [] ++ chunks) }
  | some old =>
    { st with vector_store := some (old ++ chunks), disk := some (old ++ chunks) }

/-- documents `(text, metadata)` assembled by `build_knowledge_base` for a
root key: the ticket loop's output followed by the definition of done. -/
def kbDocs (env : JiraEnv) (parent_key : String) : List (String × ChunkMeta) :=
  collectTexts (fetch_all_related_tickets env parent_key) ++ dodDocs env

/-- the chunk set of the knowledge base for a root key: a function of the
environment (ticket tree plus definition of done) only. -/
def kbChunks (env : JiraEnv) (parent_key : String) : List (String × ChunkMeta) :=
  chunksOf (kbDocs env parent_key)

/-- `JiraRAGAssistant.build_knowledge_base`: clear the vector-store handle and
the processed set, fetch the ticket tree, fail fast (`raise ValueError`) when
it is empty, otherwise extract, append the definition of done, and create the
vector store.  The outer `except` re-raises, modelled by `Except.error`. -/
def build_knowledge_base (env : JiraEnv) (st : RAGState) (parent_key : String) :
    Except String RAGState :=
  let cleared : RAGState := { st with vector_store := none, processed_tickets := ∅ }
  let tickets := fetch_all_related_tickets env parent_key
  if tickets.isEmpty then
    Except.error ("No tickets found for parent " ++ parent_key)
  else
    Except.ok (create_or_update_vector_store
      { cleared with processed_tickets := collectProcessed tickets }
      (collectTexts tickets ++ dodDocs env))

/-- `JiraRAGAssistant.get_relevant_context`: an unbuilt store returns `[]`
immediately, and a raising `similarity_search` is caught and yields `[]`. -/
def get_relevant_context (env : JiraEnv) (st : RAGState) (query : String) (k : Nat) :
    List (String × ChunkMeta) :=
  match st.vector_store with
  | none => []
  | some store =>
    match env.simSearch store query k with
    | Except.error _ => []
    | Except.ok r => r

example :
    build_knowledge_base
      { getIssue := fun _ => Except.ok ⟨"R", Except.ok "s", Except.ok (some "hello"),
          Except.ok "Epic", none⟩,
        searchIssues := fun _ => Except.ok [],
        dodFile := some "done",
        simSearch := fun s _ k => Except.ok (s.take k),
        chatInvoke := fun _ => Except.ok "x" }
      ⟨none, none, ∅⟩ "R" =
    Except.ok ⟨some [("hello", ⟨"description", some "R", none⟩), ("done", dodMeta)],
               some [("hello", ⟨"description", some "R", none⟩), ("done", dodMeta)],
               {"R"}⟩ := by decide

/-! ## The two-stage generator `JiraRAGAssistant.analyze_ticket` -/

/-- Boolean test that `pat` is an initial segment of `l`. -/
def leadsWith : List Char → List Char → Bool
  | [], _ => true
  | _ :: _, [] => false
  | a :: as, b :: bs => a = b && leadsWith as bs

/-- Boolean test that `n` occurs contiguously inside `h`. -/
def subOf : List Char → List Char → Bool
  | n, [] => n.isEmpty
  | n, c :: t => leadsWith n (c :: t) || subOf n t

/-- result strings of `analyze_ticket` that report a failure. -/
def startsWithError (s : String) : Bool :=
  leadsWith ("Error".data) s.data

/-- Python `sep.join(l)`. -/
def pyJoin (sep : String) : List String → String
  | [] => ""
  | [a] => a
  | a :: b :: r => a ++ sep ++ pyJoin sep (b :: r)

/-- Python `s.strip()` on a `String`. -/
def pyStrip (s : String) : String :=
  String.mk (stripChars s.data)

/-- content of the `SystemMessage` configured in `__init__`. -/
def systemMessageContent : String :=
  "\n        I am a JIRA ticket analyzer for the Embedded Systems team at u-blox.\n        My purpose is to analyze tickets and propose precise acceptance criteria \n        based on our Definition of Done and historical context from related tickets.\n        "

/-- retrieval query formulated from the ticket's summary in `analyze_ticket`. -/
def queryOf (content : TicketContent) : String :=
  "Based on the ticket '" ++ content.summary ++ "', what should be the acceptance criteria?"

/-- the `context_text` assembled in `analyze_ticket`: page contents of the
top-3 retrieved chunks joined with newlines. -/
def retrievedContext (env : JiraEnv) (st : RAGState) (content : TicketContent) : String :=
  pyJoin "\n" ((get_relevant_context env st (queryOf content) 3).map Prod.fst)

/-- the classification prompt of `analyze_ticket` after template substitution
(system message followed by the human template with the ticket fields
filled in). -/
def classificationPrompt (content : TicketContent) : String :=
  systemMessageContent ++
  "Based on the ticket information, classify this ticket into one of these categories:\n                    - General feature development\n                    - Release (ROM/FW)\n                    - Bug Fix\n                    - Verification and Bring-up\n                    - Tool Update\n                    - Investigation/Concept Work\n                    - RMA\n\nTicket Information:\n- Summary: " ++
  content.summary ++ "\n- Description: " ++ content.description ++
  "\n- Type: " ++ content.itype ++
  "\n\nProvide ONLY the category name, nothing else."

/-- the generation prompt of `analyze_ticket` after template substitution. -/
def generationPrompt (category : String) (content : TicketContent) (context : String) :
    String :=
  systemMessageContent ++
  "Based on the following information, provide up to 4 specific acceptance criteria for this ticket.\n\nTicket Classification: " ++
  category ++ "\n\nTicket Information:\n- Key: " ++ content.key ++
  "\n- Type: " ++ content.itype ++ "\n- Summary: " ++ content.summary ++
  "\n- Description: " ++ content.description ++
  "\n\nRelated Context:\n" ++ context ++
  "\n\nFormat your response as follows:\n\nTicket Type: " ++ category ++
  "\n\nAcceptance Criteria (max 4):\n1. [First criterion]\n   - Verification: [How to verify this criterion]\n\n2. [Second criterion]\n   - Verification: [How to verify this criterion]\n\n[etc., up to 4 criteria]"

/-- `JiraRAGAssistant.analyze_ticket`: fetch the target ticket, extract its
content, retrieve context, classify, then generate.  The whole body is in one
`try`; any raising call is caught and converted into an error string. -/
def analyze_ticket (env : JiraEnv) (st : RAGState) (issue_key : String) : String :=
  match env.getIssue issue_key with
  | Except.error e => "Error analyzing ticket: " ++ e
  | Except.ok issue =>
    match extract_ticket_content issue with
    | none => "Error: Could not fetch JIRA issue"
    | some content =>
      let context_text := retrievedContext env st content
      match env.chatInvoke (classificationPrompt content) with
      | Except.error e => "Error analyzing ticket: " ++ e
      | Except.ok cls =>
        let ticket_category := pyStrip cls
        match env.chatInvoke (generationPrompt ticket_category content context_text) with
        | Except.error e => "Error analyzing ticket: " ++ e
        | Except.ok resp => resp

/-! ## `src/utils.py`: `fetch_jira_issue` and `read_project_context` -/

/-- issue link object: optional `outwardIssue`/`inwardIssue` ends (modelled by
their keys) and the link type's direction names. -/
structure IssueLink where
  outwardIssue : Option String
  inwardIssue : Option String
  typeOutward : String
  typeInward : String
deriving Repr, DecidableEq

/-- tracker issue as rendered by `utils.fetch_jira_issue`; `hasattr`-guarded
optional fields are `Option`s, `parent` carries the parent's key and summary. -/
structure TrackerIssue where
  key : String
  summary : String
  description : Option String
  statusName : String
  typeName : String
  issuelinks : Option (List IssueLink)
  parent : Option (String × String)
deriving Repr, DecidableEq

/-- Python f-string rendering of a possibly-`None` value. -/
def pyShow : Option String → String
  | none => "None"
  | some s => s

/-- the linked-issue lines collected by the loop in `fetch_jira_issue`. -/
def linkStrs (ls : List IssueLink) : List String :=
  ls.flatMap (fun l =>
    (match l.outwardIssue with
     | some k => [l.typeOutward ++ ": " ++ k]
     | none => []) ++
    (match l.inwardIssue with
     | some k => [l.typeInward ++ ": " ++ k]
     | none => []))

/-- `utils.fetch_jira_issue` (identical in
`jira_product_owner_langchain.py`), modelling the formatting performed after
`jira.issue` succeeded: every dynamic attribute is accessed behind a
`hasattr` guard, so the rendering is total.  The template's `Linked Issues:`
label ends the line (with a trailing space); the value is rendered on the
following 8-space-indented line. -/
def fetch_jira_issue (issue : TrackerIssue) : String :=
  let linked_issues := match issue.issuelinks with
    | none => []
    | some ls => linkStrs ls
  let linked_issues_str :=
    if linked_issues.isEmpty then "None" else pyJoin "\n        " linked_issues
  let parent_info := match issue.parent with
    | none => "None"
    | some p => p.1 ++ " - " ++ p.2
  "\n        Issue Key: " ++ issue.key ++
  "\n        Summary: " ++ issue.summary ++
  "\n        Description: " ++ pyShow issue.description ++
  "\n        Status: " ++ issue.statusName ++
  "\n        Type: " ++ issue.typeName ++
  "\n        Parent Epic: " ++ parent_info ++
  "\n        Linked Issues: \n        " ++ linked_issues_str ++
  "\n        "

/-- helper for Python `str.find`: first index (counted from `i`) at which
`sub` occurs in the remaining text. -/
def pyFindAux (sub : List Char) : List Char → Nat → Option Nat
  | [], i => if sub.isEmpty then some i else none
  | c :: rest, i =>
    if leadsWith sub (c :: rest) then some i else pyFindAux sub rest (i + 1)

/-- Python `hay.find(sub, start)`: the lowest absolute index `≥ start` of an
occurrence, or `-1`. -/
def pyFind (hay sub : List Char) (start : Nat) : Int :=
  match pyFindAux sub (hay.drop start) 0 with
  | some j => ((start + j : Nat) : Int)
  | none => -1

/-- Python slice `l[a:e]` for a nonnegative start and an `Int` end (a negative
end counts from the end of the sequence, exactly as in Python). -/
def pySliceTo (l : List Char) (a : Nat) (e : Int) : List Char :=
  let len : Int := l.length
  let eff : Int := if e < 0 then max (len + e) 0 else min e len
  (l.drop a).take (eff.toNat - a)

/-- `utils.read_project_context`, from the file content onward (the
`README.md` lookup and read are I/O and are modelled by passing the content):
extract the Background section via `find`, then the DoD section; a missing
DoD section returns the error dictionary.  Note the Background slice end is
the raw result of `find("##", background_start + 2)`, which is `-1` when no
later heading exists. -/
def read_project_context (content : List Char) :
    Except (List Char) (List Char × List Char) :=
  let background_start := pyFind content ("## Background".data) 0
  let background :=
    if background_start = -1 then ("No background information available".data)
    else
      let next_section := pyFind content ("##".data) (background_start.toNat + 2)
      stripChars (pySliceTo content background_start.toNat next_section)
  let dod_start := pyFind content ("## Definition of Done (DoD)".data) 0
  if dod_start = -1 then Except.error ("DoD section not found in README.md".data)
  else
    let next_section := pyFind content ("## Common Acronyms".data) dod_start.toNat
    let dod_content :=
      if next_section = -1 then content.drop dod_start.toNat
      else pySliceTo content dod_start.toNat next_section
    Except.ok (background, stripChars dod_content)

example :
    read_project_context ("## Background\nB\n## Definition of Done (DoD)\nD".data) =
    Except.ok (("## Background\nB".data), ("## Definition of Done (DoD)\nD".data)) := by
  decide

/-! ## Concrete instances used to evaluate the model -/

/-- root epic of the worked scenario (spec section 8). -/
def rootIssue : RawIssue :=
  ⟨"ES-2700", Except.ok "Root epic", Except.ok (some "Root work item"),
   Except.ok "Epic", none⟩

/-- first child, with a description and an acceptance-criteria field. -/
def childA : RawIssue :=
  ⟨"ES-2701", Except.ok "Child A", Except.ok (some "Implement X"),
   Except.ok "Story", some "X implemented"⟩

/-- second child, with a description only. -/
def childB : RawIssue :=
  ⟨"ES-2702", Except.ok "Child B", Except.ok (some "Test X"),
   Except.ok "Story", none⟩

/-- ticket whose `summary` attribute access raises, while its other fields
are perfectly well formed. -/
def badIssue : RawIssue :=
  ⟨"ES-BAD", Except.error "summary attribute raised",
   Except.ok (some "important description"), Except.ok "Task", none⟩

/-- healthy environment: the root `ES-2700` has children `ES-2701` and
`ES-2702`, the definition-of-done file is readable, the similarity search
returns the first `k` chunks, and the chat model answers. -/
def wEnv : JiraEnv :=
  ⟨fun k =>
      if k = "ES-2700" then Except.ok rootIssue
      else if k = "ES-2701" then Except.ok childA
      else if k = "ES-2702" then Except.ok childB
      else Except.error ("issue not found " ++ k),
   fun q => if q = jqlFor "ES-2700" then Except.ok [childA, childB] else Except.ok [],
   some "Definition of Done reference text",
   fun s _ k => Except.ok (s.take k),
   fun _ => Except.ok " Bug Fix "⟩

/-- environment identical to `wEnv` except that the children query returns a
malformed ticket followed by a healthy one. -/
def badEnv : JiraEnv :=
  ⟨fun k => if k = "ES-2700" then Except.ok rootIssue
            else Except.error ("issue not found " ++ k),
   fun q => if q = jqlFor "ES-2700" then Except.ok [badIssue, childB] else Except.ok [],
   some "Definition of Done reference text",
   fun s _ k => Except.ok (s.take k),
   fun _ => Except.ok " Bug Fix "⟩

/-- environment in which every external call raises. -/
def failEnv : JiraEnv :=
  ⟨fun _ => Except.error "tracker unreachable",
   fun _ => Except.error "tracker unreachable",
   none,
   fun _ _ _ => Except.error "no store",
   fun _ => Except.error "model down"⟩

/-- fresh assistant state: no vector store yet, nothing on disk. -/
def emptyState : RAGState := ⟨none, none, ∅⟩

/-- chunk persisted by an earlier build for a different root ticket. -/
def staleChunk : String × ChunkMeta :=
  ("stale chunk", ⟨"description", some "OLD-1", none⟩)

/-- state left over from an earlier build for a different root ticket. -/
def staleState : RAGState :=
  ⟨some [staleChunk], some [staleChunk], {"OLD-1"}⟩

/-- ticket with zero issue links and no parent field. -/
def c8Issue : TrackerIssue :=
  ⟨"ES-1281", "Add feature", some "Feature description", "Open", "Task", none, none⟩

/-- README content whose Background section is the last section of the file:
the DoD section precedes it, so `find("##", background_start + 2)` fails. -/
def tailBackgroundReadme : String :=
  "## Definition of Done (DoD)\nDo it.\n## Background is last here!"

/-! ## Lemmas about the chunker -/

lemma dropWhile_length_le (p : Char → Bool) (l : List Char) :
    (l.dropWhile p).length ≤ l.length := by
  induction l with
  | nil => simp
  | cons a t ih =>
    by_cases h : p a <;> simp [List.dropWhile_cons, h] <;> omega

lemma length_stripChars_le (l : List Char) : (stripChars l).length ≤ l.length := by
  unfold stripChars
  have h1 := dropWhile_length_le pyIsSpace l
  have h2 := dropWhile_length_le pyIsSpace ((l.dropWhile pyIsSpace).reverse)
  simp only [List.length_reverse] at *
  omega

lemma joinNL_length_cons (c : List Char) (rest : List (List Char)) :
    (joinNL (c :: rest)).length =
      c.length + (if rest.isEmpty then 0 else 1 + (joinNL rest).length) := by
  cases rest <;> simp [joinNL, List.length_append] <;> omega

lemma joinNL_length_pos (cur : List (List Char)) (hne : cur ≠ [])
    (hmem : ∀ x ∈ cur, x ≠ []) : 0 < (joinNL cur).length := by
  cases cur with
  | nil => exact absurd rfl hne
  | cons c rest =>
    have hc : c ≠ [] := hmem c (by simp)
    have hcl : 0 < c.length := List.length_pos.mpr hc
    rw [joinNL_length_cons]
    split <;> omega

lemma joinNL_length_append_singleton (l : List (List Char)) (d : List Char) :
    (joinNL (l ++ [d])).length =
      (joinNL l).length + d.length + (if l.isEmpty then 0 else 1) := by
  induction l with
  | nil => simp [joinNL]
  | cons a t ih =>
    cases t with
    | nil => simp [joinNL, List.length_append]; omega
    | cons b r =>
      have h1 : (a :: b :: r) ++ [d] = a :: ((b :: r) ++ [d]) := rfl
      rw [h1]
      have h2 : joinNL (a :: ((b :: r) ++ [d])) = a ++ '\n' :: joinNL ((b :: r) ++ [d]) := rfl
      have h3 : joinNL (a :: b :: r) = a ++ '\n' :: joinNL (b :: r) := rfl
      rw [h2, h3, List.length_append, List.length_cons, ih,
        List.length_append, List.length_cons]
      simp only [List.isEmpty_cons]
      omega

lemma joinDocs_eq_some {cur : List (List Char)} {t : List Char}
    (h : joinDocs cur = some t) : t = stripChars (joinNL cur) := by
  unfold joinDocs at h
  split at h
  · cases h
  · exact (Option.some.inj h).symm

lemma joinDocs_length_le {cur : List (List Char)} {t : List Char}
    (h : joinDocs cur = some t) : t.length ≤ (joinNL cur).length := by
  rw [joinDocs_eq_some h]
  exact length_stripChars_le _

lemma popLoop_spec (dLen : Nat) (cur : List (List Char)) :
    ∀ (total : Nat), total = (joinNL cur).length →
      (popLoop dLen cur total).2 = (joinNL (popLoop dLen cur total).1).length ∧
      (∀ x ∈ (popLoop dLen cur total).1, x ∈ cur) ∧
      ((popLoop dLen cur total).1 = [] ∨
        ((popLoop dLen cur total).2 ≤ chunkOverlap ∧
          ((popLoop dLen cur total).2 + dLen + 1 ≤ chunkSize ∨
            (popLoop dLen cur total).2 = 0))) := by
  induction cur with
  | nil =>
    intro total htot
    refine ⟨?_, ?_, Or.inl rfl⟩
    · simpa [popLoop] using htot
    · simp [popLoop]
  | cons c rest ih =>
    intro total htot
    by_cases hcond : total > chunkOverlap ∨ (total + dLen + 1 > chunkSize ∧ total > 0)
    · have hpop : popLoop dLen (c :: rest) total =
          popLoop dLen rest (total - (c.length + if rest.isEmpty then 0 else 1)) := by
        simp only [popLoop]
        rw [if_pos hcond]
      have hnew : total - (c.length + if rest.isEmpty then 0 else 1) =
          (joinNL rest).length := by
        rw [htot, joinNL_length_cons]
        cases rest <;> simp [joinNL] <;> omega
      rw [hpop]
      obtain ⟨h1, h2, h3⟩ := ih _ hnew
      exact ⟨h1, fun x hx => List.mem_cons_of_mem _ (h2 x hx), h3⟩
    · have hpop : popLoop dLen (c :: rest) total = (c :: rest, total) := by
        simp only [popLoop]
        rw [if_neg hcond]
      rw [hpop]
      refine ⟨htot, fun x hx => hx, Or.inr ?_⟩
      simp only [chunkOverlap, chunkSize] at *
      omega

lemma mergeGo_le (ds : List (List Char)) :
    ∀ (cur : List (List Char)) (total : Nat) (docs : List (List Char)),
      (∀ d ∈ ds, d.length ≤ chunkSize ∧ d ≠ []) →
      (∀ c ∈ docs, c.length ≤ chunkSize) →
      total = (joinNL cur).length →
      total ≤ chunkSize →
      (∀ x ∈ cur, x ≠ []) →
      ∀ c ∈ mergeGo ds cur total docs, c.length ≤ chunkSize := by
  induction ds with
  | nil =>
    intro cur total docs _ hdocs htot hle _ c hc
    simp only [mergeGo] at hc
    rcases List.mem_append.mp hc with h | h
    · exact hdocs c h
    · cases hjd : joinDocs cur with
      | none => rw [hjd] at h; cases h
      | some t =>
        rw [hjd] at h
        simp only [Option.toList_some, List.mem_singleton] at h
        subst h
        have := joinDocs_length_le hjd
        omega
  | cons d ds ih =>
    intro cur total docs hds hdocs htot hle hcur
    have hd := hds d (by simp)
    have hds' : ∀ x ∈ ds, x.length ≤ chunkSize ∧ x ≠ [] :=
      fun x hx => hds x (List.mem_cons_of_mem _ hx)
    simp only [mergeGo]
    by_cases hcond : total + d.length + (if cur.isEmpty then 0 else 1) > chunkSize
    · rw [if_pos hcond]
      obtain ⟨h1, h2, h3⟩ := popLoop_spec d.length cur total htot
      apply ih _ _ _ hds'
      · intro c hcdocs
        rcases List.mem_append.mp hcdocs with h | h
        · exact hdocs c h
        · by_cases hce : cur.isEmpty
          · rw [if_pos hce] at h; cases h
          · rw [if_neg hce] at h
            cases hjd : joinDocs cur with
            | none => rw [hjd] at h; cases h
            | some t =>
              rw [hjd] at h
              simp only [Option.toList_some, List.mem_singleton] at h
              subst h
              have := joinDocs_length_le hjd
              omega
      · rw [joinNL_length_append_singleton, h1]
      · by_cases hpe : (popLoop d.length cur total).1 = []
        · have hz : (popLoop d.length cur total).2 = 0 := by
            rw [h1, hpe]; rfl
          rw [hpe, hz]
          have hzero : (if ([] : List (List Char)).isEmpty then (0 : Nat) else 1) = 0 := rfl
          rw [hzero]
          omega
        · have hie : ((popLoop d.length cur total).1).isEmpty = false := by
            cases hp : (popLoop d.length cur total).1 with
            | nil => exact absurd hp hpe
            | cons x y => rfl
          have hone :
              (if ((popLoop d.length cur total).1).isEmpty then (0 : Nat) else 1) = 1 := by
            rw [hie]; rfl
          rw [hone]
          have hpos : 0 < (popLoop d.length cur total).2 := by
            rw [h1]
            exact joinNL_length_pos _ hpe (fun x hx => hcur x (h2 x hx))
          rcases h3 with h3 | ⟨_, h3 | h3⟩
          · exact absurd h3 hpe
          · omega
          · omega
      · intro x hx
        rcases List.mem_append.mp hx with h | h
        · exact hcur x (h2 x h)
        · simp only [List.mem_singleton] at h
          subst h; exact hd.2
    · rw [if_neg hcond]
      apply ih _ _ _ hds' hdocs
      · rw [joinNL_length_append_singleton, htot]
      · omega
      · intro x hx
        rcases List.mem_append.mp hx with h | h
        · exact hcur x h
        · simp only [List.mem_singleton] at h
          subst h; exact hd.2

lemma nlSplits_mem_ne_nil (l : List Char) : ∀ x ∈ nlSplits l, x ≠ [] := by
  intro x hx
  unfold nlSplits at hx
  have := List.of_mem_filter hx
  intro hxe
  subst hxe
  simp at this

lemma exists_nonspace_dropWhile (p : Char → Bool) (l : List Char)
    (h : ∃ c ∈ l, p c = false) : ∃ c ∈ l.dropWhile p, p c = false := by
  induction l with
  | nil => simp at h
  | cons a t ih =>
    by_cases ha : p a
    · rw [List.dropWhile_cons, if_pos ha]
      obtain ⟨c, hc, hpc⟩ := h
      rcases List.mem_cons.mp hc with rfl | hct
      · rw [ha] at hpc; cases hpc
      · exact ih ⟨c, hct, hpc⟩
    · rw [List.dropWhile_cons, if_neg ha]
      exact h

lemma stripChars_ne_nil (l : List Char) (h : ∃ c ∈ l, pyIsSpace c = false) :
    stripChars l ≠ [] := by
  unfold stripChars
  have h1 := exists_nonspace_dropWhile pyIsSpace l h
  have h2 : ∃ c ∈ (l.dropWhile pyIsSpace).reverse, pyIsSpace c = false := by
    obtain ⟨c, hc, hpc⟩ := h1
    exact ⟨c, List.mem_reverse.mpr hc, hpc⟩
  have h3 := exists_nonspace_dropWhile pyIsSpace _ h2
  obtain ⟨c, hc, _⟩ := h3
  exact List.ne_nil_of_mem (List.mem_reverse.mpr hc)

lemma mem_joinNL (l : List (List Char)) (x : List Char) (c : Char)
    (hx : x ∈ l) (hc : c ∈ x) : c ∈ joinNL l := by
  induction l with
  | nil => simp at hx
  | cons a t ih =>
    cases t with
    | nil =>
      simp only [List.mem_singleton] at hx
      subst hx
      simpa [joinNL] using hc
    | cons b r =>
      have hj : joinNL (a :: b :: r) = a ++ '\n' :: joinNL (b :: r) := rfl
      rw [hj]
      rcases List.mem_cons.mp hx with rfl | hxt
      · exact List.mem_append_left _ hc
      · exact List.mem_append_right _ (List.mem_cons_of_mem _ (ih hxt))

lemma splitNL_ne_nil (l : List Char) : splitNL l ≠ [] := by
  cases l with
  | nil => simp [splitNL]
  | cons c cs =>
    cases h : splitNL cs with
    | nil => simp [splitNL, h]
    | cons seg rest =>
      simp only [splitNL, h]
      split <;> simp

lemma mem_splitNL (l : List Char) (c : Char) (hc : c ∈ l) (hnl : c ≠ '\n') :
    ∃ seg ∈ splitNL l, c ∈ seg := by
  induction l with
  | nil => simp at hc
  | cons a t ih =>
    cases hs : splitNL t with
    | nil => exact absurd hs (splitNL_ne_nil t)
    | cons seg rest =>
      have hrw : splitNL (a :: t) =
          if a = '\n' then [] :: seg :: rest else (a :: seg) :: rest := by
        simp only [splitNL, hs]
      rcases List.mem_cons.mp hc with rfl | hct
      · rw [hrw, if_neg hnl]
        exact ⟨c :: seg, by simp, by simp⟩
      · obtain ⟨seg', hseg', hcseg'⟩ := ih hct
        rw [hs] at hseg'
        by_cases ha : a = '\n'
        · rw [hrw, if_pos ha]
          exact ⟨seg', List.mem_cons_of_mem _ hseg', hcseg'⟩
        · rw [hrw, if_neg ha]
          rcases List.mem_cons.mp hseg' with rfl | hrest
          · exact ⟨a :: seg', by simp, List.mem_cons_of_mem _ hcseg'⟩
          · exact ⟨seg', List.mem_cons_of_mem _ hrest, hcseg'⟩

lemma mem_nlSplits (l : List Char) (c : Char) (hc : c ∈ l)
    (hws : pyIsSpace c = false) : ∃ seg ∈ nlSplits l, c ∈ seg := by
  have hnl : c ≠ '\n' := by
    intro h
    subst h
    simp [pyIsSpace] at hws
  obtain ⟨seg, hseg, hcseg⟩ := mem_splitNL l c hc hnl
  refine ⟨seg, ?_, hcseg⟩
  unfold nlSplits
  apply List.mem_filter.mpr
  refine ⟨hseg, ?_⟩
  have : seg ≠ [] := List.ne_nil_of_mem hcseg
  cases seg with
  | nil => exact absurd rfl this
  | cons x y => simp

lemma mergeGo_acc (ds : List (List Char)) :
    ∀ (cur : List (List Char)) (total : Nat) (docs : List (List Char)),
      ∃ r, mergeGo ds cur total docs = docs ++ r := by
  induction ds with
  | nil =>
    intro cur total docs
    exact ⟨(joinDocs cur).toList, rfl⟩
  | cons d ds ih =>
    intro cur total docs
    simp only [mergeGo]
    by_cases hcond : total + d.length + (if cur.isEmpty then 0 else 1) > chunkSize
    · rw [if_pos hcond]
      obtain ⟨r, hr⟩ := ih ((popLoop d.length cur total).1 ++ [d])
        ((popLoop d.length cur total).2 + d.length +
          (if (popLoop d.length cur total).1.isEmpty then 0 else 1))
        (docs ++ (if cur.isEmpty then [] else (joinDocs cur).toList))
      exact ⟨_, by rw [hr, List.append_assoc]⟩
    · rw [if_neg hcond]
      exact ih _ _ docs

lemma mergeGo_ne_nil (ds : List (List Char)) :
    ∀ (cur : List (List Char)) (total : Nat) (docs : List (List Char)),
      (∃ x, (x ∈ cur ∨ x ∈ ds) ∧ ∃ c ∈ x, pyIsSpace c = false) →
      mergeGo ds cur total docs ≠ [] := by
  induction ds with
  | nil =>
    intro cur total docs hwit
    obtain ⟨x, hx, c, hcx, hws⟩ := hwit
    rcases hx with hx | hx
    swap
    · simp at hx
    have hcj : c ∈ joinNL cur := mem_joinNL cur x c hx hcx
    have hstrip : stripChars (joinNL cur) ≠ [] := stripChars_ne_nil _ ⟨c, hcj, hws⟩
    have hjd : joinDocs cur = some (stripChars (joinNL cur)) := by
      unfold joinDocs
      rw [if_neg]
      intro he
      exact hstrip (by cases hs : stripChars (joinNL cur) with
        | nil => rfl
        | cons a b => rw [hs] at he; cases he)
    simp only [mergeGo, hjd]
    simp
  | cons d ds ih =>
    intro cur total docs hwit
    obtain ⟨x, hx, c, hcx, hws⟩ := hwit
    simp only [mergeGo]
    by_cases hcond : total + d.length + (if cur.isEmpty then 0 else 1) > chunkSize
    · rw [if_pos hcond]
      rcases hx with hx | hx
      · -- the witness split is already in `current_doc`: the emitted chunk
        -- lands in the accumulator, which `mergeGo` only extends
        have hce : cur.isEmpty = false := by
          cases hcur : cur with
          | nil => rw [hcur] at hx; simp at hx
          | cons a b => rfl
        have hcj : c ∈ joinNL cur := mem_joinNL cur x c hx hcx
        have hstrip : stripChars (joinNL cur) ≠ [] := stripChars_ne_nil _ ⟨c, hcj, hws⟩
        have hjd : joinDocs cur = some (stripChars (joinNL cur)) := by
          unfold joinDocs
          rw [if_neg]
          intro he
          exact hstrip (by cases hs : stripChars (joinNL cur) with
            | nil => rfl
            | cons a b => rw [hs] at he; cases he)
        obtain ⟨r, hr⟩ := mergeGo_acc ds ((popLoop d.length cur total).1 ++ [d])
          ((popLoop d.length cur total).2 + d.length +
            (if (popLoop d.length cur total).1.isEmpty then 0 else 1))
          (docs ++ (if cur.isEmpty then [] else (joinDocs cur).toList))
        rw [hr]
        simp [hce, hjd]
      · rcases List.mem_cons.mp hx with rfl | hxt
        · exact ih _ _ _ ⟨x, Or.inl (List.mem_append_right _ (by simp)), c, hcx, hws⟩
        · exact ih _ _ _ ⟨x, Or.inr hxt, c, hcx, hws⟩
    · rw [if_neg hcond]
      rcases hx with hx | hx
      · exact ih _ _ _ ⟨x, Or.inl (List.mem_append_left _ hx), c, hcx, hws⟩
      · rcases List.mem_cons.mp hx with rfl | hxt
        · exact ih _ _ _ ⟨x, Or.inl (List.mem_append_right _ (by simp)), c, hcx, hws⟩
        · exact ih _ _ _ ⟨x, Or.inr hxt, c, hcx, hws⟩

lemma split_text_chars_ne_nil (l : List Char) (h : ∃ c ∈ l, pyIsSpace c = false) :
    split_text_chars l ≠ [] := by
  obtain ⟨c, hc, hws⟩ := h
  obtain ⟨seg, hseg, hcseg⟩ := mem_nlSplits l c hc hws
  unfold split_text_chars merge_splits
  exact mergeGo_ne_nil _ _ _ _ ⟨seg, Or.inr hseg, c, hcseg, hws⟩

lemma split_text_ne_nil (s : String) (h : ∃ c ∈ s.data, pyIsSpace c = false) :
    split_text s ≠ [] := by
  unfold split_text
  intro he
  exact split_text_chars_ne_nil s.data h (List.map_eq_nil_iff.mp he)

/-! ## Lemmas about prefixes and substrings -/

lemma leadsWith_refl_append (n m : List Char) : leadsWith n (n ++ m) = true := by
  induction n with
  | nil => rfl
  | cons a t ih => simp [leadsWith, ih]

lemma leadsWith_append_left (p : List Char) :
    ∀ (l m : List Char), leadsWith p l = true → leadsWith p (l ++ m) = true := by
  induction p with
  | nil => intro l m _; rfl
  | cons a t ih =>
    intro l m h
    cases l with
    | nil => simp [leadsWith] at h
    | cons b bs =>
      simp only [leadsWith, Bool.and_eq_true, decide_eq_true_eq] at h ⊢
      exact ⟨h.1, ih bs m h.2⟩

lemma subOf_of_leadsWith (n m : List Char) (h : leadsWith n m = true) :
    subOf n m = true := by
  cases m with
  | nil =>
    cases n with
    | nil => rfl
    | cons a t => simp [leadsWith] at h
  | cons c t => simp [subOf, h]

lemma subOf_self_append (n m : List Char) : subOf n (n ++ m) = true :=
  subOf_of_leadsWith _ _ (leadsWith_refl_append n m)

lemma subOf_append_right (n : List Char) (a : List Char) {b : List Char}
    (h : subOf n b = true) : subOf n (a ++ b) = true := by
  induction a with
  | nil => simpa using h
  | cons c t ih => simp [subOf, ih]

lemma startsWithError_concat (e : String) :
    startsWithError ("Error analyzing ticket: " ++ e) = true := by
  unfold startsWithError
  rw [String.data_append]
  exact leadsWith_append_left _ _ _ (by decide)

/-! ## Lemmas about `build_knowledge_base` -/

lemma build_ok_of_ne_nil (env : JiraEnv) (st : RAGState) (key : String)
    (h : fetch_all_related_tickets env key ≠ []) :
    build_knowledge_base env st key = Except.ok
      ⟨some (st.disk.getD [] ++ kbChunks env key),
        some (st.disk.getD [] ++ kbChunks env key),
        collectProcessed (fetch_all_related_tickets env key)⟩ := by
  cases htk : fetch_all_related_tickets env key with
  | nil => exact absurd htk h
  | cons a t =>
    simp [build_knowledge_base, htk, create_or_update_vector_store, kbChunks, kbDocs]

lemma build_err_of_nil (env : JiraEnv) (st : RAGState) (key : String)
    (h : fetch_all_related_tickets env key = []) :
    build_knowledge_base env st key =
      Except.error ("No tickets found for parent " ++ key) := by
  simp [build_knowledge_base, h]

/-! ## Claim theorems -/

/-- C1 counterexample: building `ES-2700` over state persisted by an earlier
build for root `OLD-1` completes normally, yet the stale `OLD-1` chunk is
still present both in the new in-memory index and in the persisted
representation — the contents are not replaced wholesale. -/
theorem c1_stale_entry_retained_counterexample :
    build_knowledge_base wEnv staleState "ES-2700" = Except.ok
      ⟨some (staleChunk :: kbChunks wEnv "ES-2700"),
        some (staleChunk :: kbChunks wEnv "ES-2700"),
        collectProcessed (fetch_all_related_tickets wEnv "ES-2700")⟩ ∧
    staleChunk.2.ticket = some "OLD-1" := by
  decide

/-- C1 (amended): a completed build for root key `R` recreates the in-memory
handle over the persist directory: the index and its persisted
representation equal the previously persisted entries followed by exactly
the chunks derived from `R`'s ticket tree plus the definition-of-done
document.  Entries from an earlier build for a different root are retained,
not replaced; only over an initially empty persist directory does the index
reflect exactly one root ticket. -/
theorem c1_appends_to_persisted (env : JiraEnv) (st : RAGState) (key : String)
    (st' : RAGState) (h : build_knowledge_base env st key = Except.ok st') :
    st'.vector_store = some (st.disk.getD [] ++ kbChunks env key) ∧
    st'.disk = some (st.disk.getD [] ++ kbChunks env key) ∧
    (st.disk = none → st'.vector_store = some (kbChunks env key)) := by
  cases htk : fetch_all_related_tickets env key with
  | nil =>
    rw [build_err_of_nil env st key htk] at h
    cases h
  | cons a t =>
    have hne : fetch_all_related_tickets env key ≠ [] := by rw [htk]; simp
    rw [build_ok_of_ne_nil env st key hne] at h
    injection h with h'
    subst h'
    refine ⟨rfl, rfl, ?_⟩
    intro hd
    rw [hd]
    rfl

/-- C1 witness: the stale-state build evaluates to the append of prior disk
contents and the fresh chunk set. -/
theorem c1_appends_to_persisted_witness :
    ∃ st', build_knowledge_base wEnv staleState "ES-2700" = Except.ok st' ∧
      st'.vector_store = some (staleState.disk.getD [] ++ kbChunks wEnv "ES-2700") ∧
      st'.disk = some (staleState.disk.getD [] ++ kbChunks wEnv "ES-2700") := by
  have h : build_knowledge_base wEnv staleState "ES-2700" = Except.ok
      ⟨some (staleState.disk.getD [] ++ kbChunks wEnv "ES-2700"),
        some (staleState.disk.getD [] ++ kbChunks wEnv "ES-2700"),
        collectProcessed (fetch_all_related_tickets wEnv "ES-2700")⟩ := by decide
  obtain ⟨h1, h2, _⟩ := c1_appends_to_persisted wEnv staleState "ES-2700" _ h
  exact ⟨_, h, h1, h2⟩

/-- C2 counterexample: two consecutive builds for `ES-2700` from a fresh
state are not idempotent — the second call reconnects to the persisted
collection and appends the same chunk set again, so every entry is
duplicated. -/
theorem c2_duplicate_entries_counterexample :
    build_knowledge_base wEnv emptyState "ES-2700" = Except.ok
      ⟨some (kbChunks wEnv "ES-2700"), some (kbChunks wEnv "ES-2700"),
        collectProcessed (fetch_all_related_tickets wEnv "ES-2700")⟩ ∧
    build_knowledge_base wEnv
      ⟨some (kbChunks wEnv "ES-2700"), some (kbChunks wEnv "ES-2700"),
        collectProcessed (fetch_all_related_tickets wEnv "ES-2700")⟩ "ES-2700" =
      Except.ok
        ⟨some (kbChunks wEnv "ES-2700" ++ kbChunks wEnv "ES-2700"),
          some (kbChunks wEnv "ES-2700" ++ kbChunks wEnv "ES-2700"),
          collectProcessed (fetch_all_related_tickets wEnv "ES-2700")⟩ ∧
    kbChunks wEnv "ES-2700" ++ kbChunks wEnv "ES-2700" ≠ kbChunks wEnv "ES-2700" := by
  decide

/-- C2 (amended): with an unchanged environment, a second build for the same
root key succeeds but is not idempotent at the index level: it appends the
same chunk set to the collection left by the first build, duplicating every
entry; only the processed-tickets set is unchanged. -/
theorem c2_second_build_duplicates (env : JiraEnv) (st : RAGState) (key : String)
    (st₁ : RAGState) (h : build_knowledge_base env st key = Except.ok st₁) :
    ∃ st₂ store₁,
      build_knowledge_base env st₁ key = Except.ok st₂ ∧
      st₁.vector_store = some store₁ ∧
      st₂.vector_store = some (store₁ ++ kbChunks env key) ∧
      st₂.disk = some (store₁ ++ kbChunks env key) ∧
      st₂.processed_tickets = st₁.processed_tickets := by
  cases htk : fetch_all_related_tickets env key with
  | nil =>
    rw [build_err_of_nil env st key htk] at h
    cases h
  | cons a t =>
    have hne : fetch_all_related_tickets env key ≠ [] := by rw [htk]; simp
    rw [build_ok_of_ne_nil env st key hne] at h
    injection h with h'
    subst h'
    exact ⟨_, st.disk.getD [] ++ kbChunks env key,
      build_ok_of_ne_nil env _ key hne, rfl, rfl, rfl, rfl⟩

/-- C2 witness: the two consecutive `ES-2700` builds exhibit the appended
duplicate chunk set. -/
theorem c2_second_build_duplicates_witness :
    ∃ st₁ st₂ store₁,
      build_knowledge_base wEnv emptyState "ES-2700" = Except.ok st₁ ∧
      build_knowledge_base wEnv st₁ "ES-2700" = Except.ok st₂ ∧
      st₁.vector_store = some store₁ ∧
      st₂.vector_store = some (store₁ ++ kbChunks wEnv "ES-2700") ∧
      st₂.disk = some (store₁ ++ kbChunks wEnv "ES-2700") := by
  have h : build_knowledge_base wEnv emptyState "ES-2700" = Except.ok
      ⟨some (emptyState.disk.getD [] ++ kbChunks wEnv "ES-2700"),
        some (emptyState.disk.getD [] ++ kbChunks wEnv "ES-2700"),
        collectProcessed (fetch_all_related_tickets wEnv "ES-2700")⟩ := by decide
  obtain ⟨st₂, store₁, h2, hv1, hv2, hd2, _⟩ :=
    c2_second_build_duplicates wEnv emptyState "ES-2700" _ h
  exact ⟨_, st₂, store₁, h, h2, hv1, hv2, hd2⟩

/-- C5: when the root ticket cannot be fetched (so the tree comes back
empty) or zero tickets are found, `build_knowledge_base` raises a
descriptive `ValueError` instead of returning normally — no partial
knowledge base is reported as a successful build. -/
theorem c5_fail_fast (env : JiraEnv) (st : RAGState) (key : String)
    (h : (∃ e, env.getIssue key = Except.error e) ∨
      fetch_all_related_tickets env key = []) :
    build_knowledge_base env st key =
      Except.error ("No tickets found for parent " ++ key) := by
  have hnil : fetch_all_related_tickets env key = [] := by
    rcases h with ⟨e, he⟩ | h
    · simp [fetch_all_related_tickets, he]
    · exact h
  exact build_err_of_nil env st key hnil

/-- C5 witness: with the tracker unreachable the build raises. -/
theorem c5_fail_fast_witness :
    ((∃ e, failEnv.getIssue "ES-2700" = Except.error e) ∨
      fetch_all_related_tickets failEnv "ES-2700" = []) ∧
    build_knowledge_base failEnv emptyState "ES-2700" =
      Except.error ("No tickets found for parent " ++ "ES-2700") :=
  ⟨Or.inl ⟨"tracker unreachable", rfl⟩,
   c5_fail_fast failEnv emptyState "ES-2700" (Or.inl ⟨"tracker unreachable", rfl⟩)⟩

/-- C3 counterexample: `ES-BAD`'s `summary` access raises while its
`description` is perfectly well formed; the build still succeeds, but *no*
field of `ES-BAD` — in particular not its healthy description — is chunked
or indexed, refuting "only that ticket's problematic field is skipped". -/
theorem c3_field_skip_counterexample :
    extract_ticket_content badIssue = none ∧
    badIssue.description = Except.ok (some "important description") ∧
    build_knowledge_base badEnv emptyState "ES-2700" = Except.ok
      ⟨some (kbChunks badEnv "ES-2700"), some (kbChunks badEnv "ES-2700"),
        collectProcessed (fetch_all_related_tickets badEnv "ES-2700")⟩ ∧
    ∀ p ∈ kbChunks badEnv "ES-2700",
      p.2.ticket ≠ some "ES-BAD" ∧ p.1 ≠ "important description" := by
  decide

/-- C3 (amended): a malformed ticket never fails the whole build, missing
description/acceptance-criteria values are tolerated as `""`, but a field
whose extraction raises causes the *entire* ticket to be skipped — every
field of that ticket is dropped, while all other tickets are unaffected. -/
theorem c3_skip_whole_ticket :
    (∀ (pre post : List RawIssue) (bad : RawIssue),
      extract_ticket_content bad = none →
        collectTexts (pre ++ bad :: post) = collectTexts (pre ++ post) ∧
        collectProcessed (pre ++ bad :: post) = collectProcessed (pre ++ post)) ∧
    (∀ (k s t : String) (ac : Option String),
      extract_ticket_content ⟨k, Except.ok s, Except.ok none, Except.ok t, ac⟩ =
        some ⟨k, s, "", t, ac.getD ""⟩) ∧
    (∀ (env : JiraEnv) (st : RAGState) (key : String),
      fetch_all_related_tickets env key ≠ [] →
        ∃ st', build_knowledge_base env st key = Except.ok st') := by
  refine ⟨?_, ?_, ?_⟩
  · intro pre post bad hbad
    induction pre with
    | nil =>
      constructor
      · simp [collectTexts, hbad]
      · simp [collectProcessed, hbad]
    | cons a t ih =>
      obtain ⟨h1, h2⟩ := ih
      constructor
      · simp only [List.cons_append, collectTexts]
        cases extract_ticket_content a <;> simp [h1]
      · simp only [List.cons_append, collectProcessed]
        cases extract_ticket_content a <;> simp [h2]
  · intro k s t ac
    rfl
  · intro env st key h
    exact ⟨_, build_ok_of_ne_nil env st key h⟩

/-- C3 witness: the malformed `ES-BAD` is dropped without affecting `ES-2702`
or the success of the build. -/
theorem c3_skip_whole_ticket_witness :
    (extract_ticket_content badIssue = none ∧
      collectTexts ([] ++ badIssue :: [childB]) = collectTexts ([] ++ [childB])) ∧
    (fetch_all_related_tickets badEnv "ES-2700" ≠ [] ∧
      ∃ st', build_knowledge_base badEnv emptyState "ES-2700" = Except.ok st') := by
  constructor
  · exact ⟨by decide, (c3_skip_whole_ticket.1 [] [childB] badIssue (by decide)).1⟩
  · exact ⟨by decide, c3_skip_whole_ticket.2.2 badEnv emptyState "ES-2700" (by decide)⟩

/-- C4: `analyze_ticket` never lets a tracker-fetch or model-call exception
escape: in every failure position (fetch raised, extraction failed,
classification call raised, generation call raised) the function returns a
string starting with "Error"; in the embedding the function is total, so
nothing is raised past the call boundary and sibling target tickets of a
batch are unaffected. -/
theorem c4_errors_surfaced (env : JiraEnv) (st : RAGState) (key : String) :
    (∀ e, env.getIssue key = Except.error e →
      startsWithError (analyze_ticket env st key) = true) ∧
    (∀ issue, env.getIssue key = Except.ok issue →
      extract_ticket_content issue = none →
      startsWithError (analyze_ticket env st key) = true) ∧
    (∀ issue content e, env.getIssue key = Except.ok issue →
      extract_ticket_content issue = some content →
      env.chatInvoke (classificationPrompt content) = Except.error e →
      startsWithError (analyze_ticket env st key) = true) ∧
    (∀ issue content cls e, env.getIssue key = Except.ok issue →
      extract_ticket_content issue = some content →
      env.chatInvoke (classificationPrompt content) = Except.ok cls →
      env.chatInvoke (generationPrompt (pyStrip cls) content
        (retrievedContext env st content)) = Except.error e →
      startsWithError (analyze_ticket env st key) = true) := by
  refine ⟨?_, ?_, ?_, ?_⟩
  · intro e he
    simp only [analyze_ticket, he]
    exact startsWithError_concat e
  · intro issue hi hx
    simp only [analyze_ticket, hi, hx]
    decide
  · intro issue content e hi hx hc
    simp only [analyze_ticket, hi, hx, hc]
    exact startsWithError_concat e
  · intro issue content cls e hi hx hc1 hc2
    simp only [analyze_ticket, hi, hx, hc1, hc2]
    exact startsWithError_concat e

/-- C4 witness: a target whose tracker fetch raises yields an error string. -/
theorem c4_errors_surfaced_witness :
    failEnv.getIssue "ES-2754" = Except.error "tracker unreachable" ∧
    startsWithError (analyze_ticket failEnv emptyState "ES-2754") = true :=
  ⟨rfl, (c4_errors_surfaced failEnv emptyState "ES-2754").1 "tracker unreachable" rfl⟩

/-- C6: a never-built vector index answers every query with the empty list
instead of raising, and `analyze_ticket` on a ticket outside any index
degrades to empty retrieved context yet still returns the model's
classification-plus-criteria response. -/
theorem c6_empty_index_degrades (env : JiraEnv) (st : RAGState) (q : String)
    (k : Nat) (key : String) (issue : RawIssue) (content : TicketContent)
    (cls resp : String)
    (hvs : st.vector_store = none)
    (hget : env.getIssue key = Except.ok issue)
    (hex : extract_ticket_content issue = some content)
    (hc1 : env.chatInvoke (classificationPrompt content) = Except.ok cls)
    (hc2 : env.chatInvoke (generationPrompt (pyStrip cls) content "") = Except.ok resp) :
    get_relevant_context env st q k = [] ∧
    analyze_ticket env st key = resp := by
  have hrc : ∀ (q' : String) (k' : Nat), get_relevant_context env st q' k' = [] := by
    intro q' k'
    unfold get_relevant_context
    rw [hvs]
  refine ⟨hrc q k, ?_⟩
  have hctx : retrievedContext env st content = "" := by
    unfold retrievedContext
    rw [hrc]
    rfl
  simp only [analyze_ticket, hget, hex, hctx, hc1, hc2]

/-- C6 witness: analyzing `ES-2701` against a fresh, never-built state
returns the generated response rather than failing. -/
theorem c6_empty_index_degrades_witness :
    emptyState.vector_store = none ∧
    get_relevant_context wEnv emptyState "any query" 3 = [] ∧
    analyze_ticket wEnv emptyState "ES-2701" = " Bug Fix " := by
  have h := c6_empty_index_degrades wEnv emptyState "any query" 3 "ES-2701" childA
    ⟨"ES-2701", "Child A", "Implement X", "Story", "X implemented"⟩ " Bug Fix " " Bug Fix "
    rfl (by decide) (by decide) (by decide) (by decide)
  exact ⟨rfl, h.1, h.2⟩

set_option maxRecDepth 8000

/-- C7 counterexample: the configured `CharacterTextSplitter` does not hard-
cut: a 501-character text with no newline is returned as a single chunk of
length 501 > 500, violating "no chunk exceeds chunk_size". -/
theorem c7_chunk_bound_counterexample :
    ∃ c ∈ split_text (String.mk (List.replicate 501 'a')), chunkSize < c.length := by
  decide

/-- C7 (amended): the splitter only breaks at the configured newline
separator and never falls back to hard character cuts, so a chunk can
exceed `chunk_size` (see the counterexample); whenever every
newline-separated segment of the input has length at most `chunk_size`,
every produced chunk has length at most `chunk_size`. -/
theorem c7_chunk_bound (s : String)
    (h : ∀ seg ∈ nlSplits s.data, seg.length ≤ chunkSize) :
    ∀ c ∈ split_text s, c.length ≤ chunkSize := by
  intro c hc
  unfold split_text at hc
  obtain ⟨l, hl, rfl⟩ := List.mem_map.mp hc
  have hlen : l.length ≤ chunkSize := by
    unfold split_text_chars merge_splits at hl
    refine mergeGo_le (nlSplits s.data) [] 0 [] ?_ ?_ ?_ ?_ ?_ l hl
    · intro d hd
      exact ⟨h d hd, nlSplits_mem_ne_nil s.data d hd⟩
    · intro x hx
      simp at hx
    · rfl
    · simp [chunkSize]
    · intro x hx
      simp at hx
  exact hlen

/-- C7 witness: a two-line text whose segments respect the bound produces
only chunks within the bound. -/
theorem c7_chunk_bound_witness :
    (∀ seg ∈ nlSplits ("Implement X\nTest X" : String).data, seg.length ≤ chunkSize) ∧
    ∀ c ∈ split_text "Implement X\nTest X", c.length ≤ chunkSize :=
  ⟨by decide, c7_chunk_bound "Implement X\nTest X" (by decide)⟩

lemma collectTexts_mem_suffix (l1 l2 : List RawIssue) (p : String × ChunkMeta)
    (h : p ∈ collectTexts l2) : p ∈ collectTexts (l1 ++ l2) := by
  induction l1 with
  | nil => simpa using h
  | cons a t ih =>
    have hr : collectTexts ((a :: t) ++ l2) = collectTexts (a :: (t ++ l2)) := rfl
    rw [hr]
    cases hx : extract_ticket_content a with
    | none =>
      simp only [collectTexts, hx]
      exact ih
    | some c =>
      simp only [collectTexts, hx]
      exact List.mem_append_right _ ih

lemma collectTexts_cons_le (t : RawIssue) (rest : List RawIssue) :
    (collectTexts rest).length ≤ (collectTexts (t :: rest)).length := by
  cases hx : extract_ticket_content t with
  | none => simp [collectTexts, hx]
  | some c =>
    simp only [collectTexts, hx, List.append_assoc, List.cons_append,
      List.length_append, List.length_cons]
    omega

lemma collectTexts_cons_lt (t : RawIssue) (rest : List RawIssue) (c : TicketContent)
    (hx : extract_ticket_content t = some c) :
    (collectTexts rest).length < (collectTexts (t :: rest)).length := by
  simp only [collectTexts, hx, List.cons_append, List.length_append, List.length_cons]
  omega

lemma chunksOf_mem {docs : List (String × ChunkMeta)} {text : String} {m : ChunkMeta}
    (h : (text, m) ∈ docs) (hne : split_text text ≠ []) :
    ∃ c, (c, m) ∈ chunksOf docs := by
  cases hsp : split_text text with
  | nil => exact absurd hsp hne
  | cons c cs =>
    refine ⟨c, ?_⟩
    unfold chunksOf
    apply List.mem_flatMap.mpr
    refine ⟨(text, m), h, ?_⟩
    rw [hsp]
    simp

/-- C9: a successful build appends the definition-of-done text as one extra
pseudo-document tagged `definition_of_done`; with a root and two extractable
children whose descriptions contain visible text, the knowledge base holds
at least 3 source documents, and the built index contains chunks tagged with
each child's key plus a chunk tagged `definition_of_done`. -/
theorem c9_dod_appended (env : JiraEnv) (st : RAGState) (key : String)
    (root c1 c2 : RawIssue) (t1 t2 : TicketContent) (dod : String)
    (hroot : env.getIssue key = Except.ok root)
    (hch : env.searchIssues (jqlFor key) = Except.ok [c1, c2])
    (hx1 : extract_ticket_content c1 = some t1)
    (hx2 : extract_ticket_content c2 = some t2)
    (hdod : env.dodFile = some dod)
    (hd1 : ∃ ch ∈ t1.description.data, pyIsSpace ch = false)
    (hd2 : ∃ ch ∈ t2.description.data, pyIsSpace ch = false)
    (hdd : ∃ ch ∈ dod.data, pyIsSpace ch = false) :
    ∃ st', build_knowledge_base env st key = Except.ok st' ∧
      3 ≤ (kbDocs env key).length ∧
      ∃ chunks, st'.vector_store = some chunks ∧
        (∃ c, (c, (⟨"description", some t1.key, none⟩ : ChunkMeta)) ∈ chunks) ∧
        (∃ c, (c, (⟨"description", some t2.key, none⟩ : ChunkMeta)) ∈ chunks) ∧
        (∃ c, (c, dodMeta) ∈ chunks) := by
  have htk : fetch_all_related_tickets env key = root :: [c1, c2] := by
    unfold fetch_all_related_tickets
    rw [hroot, hch]
  have hne : fetch_all_related_tickets env key ≠ [] := by
    rw [htk]
    simp
  have hdne : dod ≠ "" := by
    intro he
    subst he
    obtain ⟨ch, hm, _⟩ := hdd
    rw [show ("" : String).data = [] from rfl] at hm
    cases hm
  have hdodDocs : dodDocs env = [(dod, dodMeta)] := by
    unfold dodDocs
    rw [hdod]
    show (if dod ≠ "" then [(dod, dodMeta)] else []) = [(dod, dodMeta)]
    rw [if_pos hdne]
  have hkb : kbDocs env key = collectTexts (root :: [c1, c2]) ++ [(dod, dodMeta)] := by
    unfold kbDocs
    rw [htk, hdodDocs]
  have hm1 : (t1.description, (⟨"description", some t1.key, none⟩ : ChunkMeta)) ∈
      collectTexts [c1, c2] := by
    simp only [collectTexts, hx1, hx2, List.cons_append, List.nil_append]
    simp
  have hm2 : (t2.description, (⟨"description", some t2.key, none⟩ : ChunkMeta)) ∈
      collectTexts [c1, c2] := by
    simp only [collectTexts, hx1, hx2, List.cons_append, List.nil_append]
    simp
  have hm1' := collectTexts_mem_suffix [root] [c1, c2] _ hm1
  have hm2' := collectTexts_mem_suffix [root] [c1, c2] _ hm2
  have hmd : ((dod : String), dodMeta) ∈ kbDocs env key := by
    rw [hkb]
    exact List.mem_append_right _ (by simp)
  have hm1'' : (t1.description, (⟨"description", some t1.key, none⟩ : ChunkMeta)) ∈
      kbDocs env key := by
    rw [hkb]
    exact List.mem_append_left _ hm1'
  have hm2'' : (t2.description, (⟨"description", some t2.key, none⟩ : ChunkMeta)) ∈
      kbDocs env key := by
    rw [hkb]
    exact List.mem_append_left _ hm2'
  have hlen : 3 ≤ (kbDocs env key).length := by
    have ha := collectTexts_cons_le root [c1, c2]
    have hb := collectTexts_cons_lt c1 [c2] t1 hx1
    have hcc := collectTexts_cons_lt c2 [] t2 hx2
    have hz : (collectTexts ([] : List RawIssue)).length = 0 := rfl
    rw [hkb, List.length_append]
    simp only [List.length_singleton]
    omega
  refine ⟨_, build_ok_of_ne_nil env st key hne, hlen,
    st.disk.getD [] ++ kbChunks env key, rfl, ?_, ?_, ?_⟩
  · obtain ⟨c, hc⟩ := chunksOf_mem hm1'' (split_text_ne_nil _ hd1)
    exact ⟨c, List.mem_append_right _ hc⟩
  · obtain ⟨c, hc⟩ := chunksOf_mem hm2'' (split_text_ne_nil _ hd2)
    exact ⟨c, List.mem_append_right _ hc⟩
  · obtain ⟨c, hc⟩ := chunksOf_mem hmd (split_text_ne_nil _ hdd)
    exact ⟨c, List.mem_append_right _ hc⟩

/-- C9 witness: the `ES-2700` scenario with children `ES-2701`, `ES-2702`. -/
theorem c9_dod_appended_witness :
    (wEnv.getIssue "ES-2700" = Except.ok rootIssue ∧
      wEnv.searchIssues (jqlFor "ES-2700") = Except.ok [childA, childB] ∧
      wEnv.dodFile = some "Definition of Done reference text") ∧
    ∃ st', build_knowledge_base wEnv emptyState "ES-2700" = Except.ok st' ∧
      3 ≤ (kbDocs wEnv "ES-2700").length ∧
      ∃ chunks, st'.vector_store = some chunks ∧
        (∃ c, (c, (⟨"description", some "ES-2701", none⟩ : ChunkMeta)) ∈ chunks) ∧
        (∃ c, (c, (⟨"description", some "ES-2702", none⟩ : ChunkMeta)) ∈ chunks) ∧
        (∃ c, (c, dodMeta) ∈ chunks) := by
  refine ⟨⟨by decide, by decide, rfl⟩, ?_⟩
  exact c9_dod_appended wEnv emptyState "ES-2700" rootIssue childA childB
    ⟨"ES-2701", "Child A", "Implement X", "Story", "X implemented"⟩
    ⟨"ES-2702", "Child B", "Test X", "Story", ""⟩
    "Definition of Done reference text"
    (by decide) (by decide) (by decide) (by decide) rfl
    (by decide) (by decide) (by decide)

/-- C8 counterexample: for a ticket with zero links and no parent, the
rendered dump does *not* contain the contiguous text "Linked Issues: None":
the template puts the value on the following indented line. -/
theorem c8_none_rendering_counterexample :
    (c8Issue.issuelinks = none ∧ c8Issue.parent = none) ∧
    subOf (("Linked Issues: None" : String).data)
      ((fetch_jira_issue c8Issue).data) = false := by
  decide

/-- C8 (amended): a ticket with zero issue links (`issuelinks` absent or
empty) and no parent field renders "Parent Epic: None" and renders the
Linked Issues section as "None" on the following indented line (the literal
text "Linked Issues: \n        None"); every optional access is guarded, so
no null-reference failure can occur. -/
theorem c8_none_fields (issue : TrackerIssue)
    (hlinks : issue.issuelinks = none ∨ issue.issuelinks = some [])
    (hpar : issue.parent = none) :
    subOf (("Parent Epic: None" : String).data) ((fetch_jira_issue issue).data) = true ∧
    subOf (("Linked Issues: \n        None" : String).data)
      ((fetch_jira_issue issue).data) = true := by
  have hfj : fetch_jira_issue issue =
      "\n        Issue Key: " ++ issue.key ++ "\n        Summary: " ++ issue.summary ++
      "\n        Description: " ++ pyShow issue.description ++ "\n        Status: " ++
      issue.statusName ++ "\n        Type: " ++ issue.typeName ++
      "\n        Parent Epic: " ++ "None" ++ "\n        Linked Issues: \n        " ++
      "None" ++ "\n        " := by
    rcases hlinks with h | h <;> simp [fetch_jira_issue, h, hpar, linkStrs]
  constructor
  · rw [hfj]
    simp only [String.data_append, List.append_assoc]
    apply subOf_append_right
    apply subOf_append_right
    apply subOf_append_right
    apply subOf_append_right
    apply subOf_append_right
    apply subOf_append_right
    apply subOf_append_right
    apply subOf_append_right
    apply subOf_append_right
    apply subOf_append_right
    decide
  · rw [hfj]
    simp only [String.data_append, List.append_assoc]
    apply subOf_append_right
    apply subOf_append_right
    apply subOf_append_right
    apply subOf_append_right
    apply subOf_append_right
    apply subOf_append_right
    apply subOf_append_right
    apply subOf_append_right
    apply subOf_append_right
    apply subOf_append_right
    apply subOf_append_right
    apply subOf_append_right
    decide

/-- C8 witness: the concrete linkless, parentless ticket. -/
theorem c8_none_fields_witness :
    ((c8Issue.issuelinks = none ∨ c8Issue.issuelinks = some []) ∧
      c8Issue.parent = none) ∧
    (subOf (("Parent Epic: None" : String).data)
        ((fetch_jira_issue c8Issue).data) = true ∧
      subOf (("Linked Issues: \n        None" : String).data)
        ((fetch_jira_issue c8Issue).data) = true) :=
  ⟨⟨Or.inl rfl, rfl⟩, c8_none_fields c8Issue (Or.inl rfl) rfl⟩

/-- C10: when the README contains the DoD heading and its first
"## Background" occurrence (at `p`) is followed by no further "##" at or
after `p + 2`, the failed `find` yields `-1`, the slice `content[p:-1]` is
taken, and the returned background is the stripped text from `p` to the end
of the file *minus its final character*. -/
theorem c10_background_drops_last (content : List Char) (p : Nat)
    (hbg : pyFind content (("## Background" : String).data) 0 = ((p : Nat) : Int))
    (hno : pyFind content (("##" : String).data) (p + 2) = -1)
    (hdod : pyFind content (("## Definition of Done (DoD)" : String).data) 0 ≠ -1) :
    ∃ dod, read_project_context content =
      Except.ok (stripChars ((content.take (content.length - 1)).drop p), dod) := by
  have hslice : pySliceTo content p (-1) =
      (content.take (content.length - 1)).drop p := by
    simp only [pySliceTo]
    rw [if_pos (by norm_num : (-1 : Int) < 0)]
    have hm : (((content.length : Int) + (-1)) ⊔ 0).toNat = content.length - 1 := by
      by_cases hl : content.length = 0
      · rw [hl]; decide
      · rw [max_eq_left (by omega : (0 : Int) ≤ (content.length : Int) + (-1))]
        omega
    rw [hm, List.drop_take (content.length - 1) p content]
  have hp : ((p : Nat) : Int) ≠ -1 := by omega
  simp only [read_project_context]
  rw [hbg, if_neg hp]
  simp only [Int.toNat_natCast]
  rw [hno, hslice, if_neg hdod]
  exact ⟨_, rfl⟩

/-- C10 witness: a README whose Background section is the file's last
section, preceded by the DoD section. -/
theorem c10_background_drops_last_witness :
    (pyFind (tailBackgroundReadme.data) (("## Background" : String).data) 0 =
        ((35 : Nat) : Int) ∧
      pyFind (tailBackgroundReadme.data) (("##" : String).data) (35 + 2) = -1 ∧
      pyFind (tailBackgroundReadme.data)
        (("## Definition of Done (DoD)" : String).data) 0 ≠ -1) ∧
    ∃ dod, read_project_context tailBackgroundReadme.data =
      Except.ok (stripChars ((tailBackgroundReadme.data.take
        (tailBackgroundReadme.data.length - 1)).drop 35), dod) := by
  refine ⟨⟨by decide, by decide, by decide⟩, ?_⟩
  exact c10_background_drops_last tailBackgroundReadme.data 35
    (by decide) (by decide) (by decide)
